import Mathlib

/-!
Verification of scripts/feature_extraction/extract_raw_book_data.py.

The script scrapes a paginated book-listing site: it determines the total
page count, scrapes each listing page into rows (author, title, website),
then enriches each row with description, genre and download links from the
book detail page, and writes the table to CSV.

The embedding models HTML soup values as abstract structures holding
exactly the pieces the script inspects, network fetches as per-attempt
outcome functions, Python exceptions as an error monad (uncaught
exceptions terminate the run, so they are `Except.error`), and pandas
rows as structures of optional strings (NaN is `none`).
-/

namespace ExtractRawBookData

/-- Python exceptions that are not caught anywhere propagate and kill the
process; the embedding collapses them into this single error value. -/
inductive RunErr where
  | unhandled
deriving DecidableEq, Repr

/-- Outcome of one `requests.get` attempt: a parsed response body,
`requests.exceptions.Timeout`, or another `RequestException`. -/
inductive FetchOutcome (α : Type) where
  | ok (content : α)
  | timeout
  | netErr
deriving DecidableEq, Repr

/-- Decidable equality of run results, for evaluating the embedding on
concrete inputs. -/
instance {ε α : Type} [DecidableEq ε] [DecidableEq α] :
    DecidableEq (Except ε α) := fun x y =>
  match x, y with
  | .error e, .error f =>
    if h : e = f then isTrue (by rw [h])
    else isFalse (by intro he; cases he; exact h rfl)
  | .ok a, .ok b =>
    if h : a = b then isTrue (by rw [h])
    else isFalse (by intro he; cases he; exact h rfl)
  | .error _, .ok _ => isFalse (by intro he; cases he)
  | .ok _, .error _ => isFalse (by intro he; cases he)

/-! ## String helpers (Python `in`, `.lower()`, `.strip()`, `.replace`) -/

/-- `charsHasPre needle hay` is true when `needle` starts `hay`. -/
def charsHasPre : List Char → List Char → Bool
  | [], _ => true
  | _ :: _, [] => false
  | a :: as, b :: bs => a == b && charsHasPre as bs

/-- `charsHasSub needle hay`: `needle` occurs contiguously in `hay`
(the Python substring test `needle in hay`). -/
def charsHasSub (needle : List Char) : List Char → Bool
  | [] => needle.isEmpty
  | c :: t => charsHasPre needle (c :: t) || charsHasSub needle t

/-- Python `needle in hay` on strings. -/
def strHasSub (needle hay : String) : Bool :=
  charsHasSub needle.toList hay.toList

/-- Python `str.lower()` (ASCII case folding suffices for the link texts
the script compares). -/
def lowerStr (s : String) : String :=
  String.mk (s.toList.map Char.toLower)

/-- Python `str.strip()` on a character list: drop leading and trailing
whitespace. -/
def stripChars (l : List Char) : List Char :=
  ((l.dropWhile Char.isWhitespace).reverse.dropWhile Char.isWhitespace).reverse

/-- Python `str.strip()`. -/
def stripStr (s : String) : String := String.mk (stripChars s.toList)

/-- Python `text.replace(".", "")`: drop every dot. -/
def removeDots (s : String) : String :=
  String.mk (s.toList.filter (fun c => c != '.'))

/-- Python `int(s)` restricted to the digit strings the pagination text
yields: all-digit, nonempty strings parse, everything else raises
`ValueError` (modelled as `none`). -/
def parseNatDigits (s : String) : Option Nat :=
  if !s.toList.isEmpty && s.toList.all Char.isDigit then
    some (s.toList.foldl (fun a c => a * 10 + (c.toNat - 48)) 0)
  else none

/-! ## Listing-page soup model and parsers -/

/-- The base URL constant used by both parsers of the script. -/
def baseUrl : String := "https://www.lectulandia.co"

/-- An `<a>` element as the script reads it: `line.a.get(attr)` can be
absent (`none`), `line.a.text` is always a string. -/
structure ALink where
  href : Option String
  text : String
deriving DecidableEq, Repr

/-- One `div.subdetail` element of a listing page; `link` is `line.a`,
the first nested anchor, or `none` when there is no anchor at all
(then `.get` raises `AttributeError`). -/
structure Subdetail where
  link : Option ALink
deriving DecidableEq, Repr

/-- One `a.title` element of a listing page: its `title` attribute
(`line.get('title')`, possibly absent) and its `href` attribute. -/
structure TitleLink where
  titleAttr : Option String
  href : Option String
deriving DecidableEq, Repr

/-- A listing page as the script inspects it: its `div.subdetail`
elements in document order and its `a.title` elements in document
order. -/
structure ListingPage where
  subdetails : List Subdetail
  titleLinks : List TitleLink
deriving DecidableEq, Repr

/-- `get_author`: for each `div.subdetail`, if `line.a` is `None` the
`.get('href')` raises `AttributeError`, caught, and `np.nan` (here
`none`) is appended; if the anchor exists but has no `href`, Python
evaluates `'autor' in None` which raises an uncaught `TypeError`; if the
`href` contains `autor` the anchor text is appended; otherwise nothing
is appended for that element. -/
def getAuthor : List Subdetail → Except RunErr (List (Option String))
  | [] => .ok []
  | sd :: rest =>
    match sd.link with
    | none => (getAuthor rest).map (fun l => none :: l)
    | some a =>
      match a.href with
      | none => .error .unhandled
      | some hr =>
        if strHasSub "autor" hr then
          (getAuthor rest).map (fun l => some a.text :: l)
        else getAuthor rest

/-- `get_title_and_website`: for each `a.title` element append its
`title` attribute to `titles` and `base_url + href` to `websites`; a
missing `href` makes the string concatenation raise an uncaught
`TypeError`. -/
def getTitleAndWebsite :
    List TitleLink → Except RunErr (List (Option String) × List String)
  | [] => .ok ([], [])
  | l :: rest =>
    match l.href with
    | none => .error .unhandled
    | some h =>
      (getTitleAndWebsite rest).map
        (fun tw => (l.titleAttr :: tw.1, (baseUrl ++ h) :: tw.2))

/-! ## Listing pipeline: `scrape_books` -/

/-- One row of the listing table, as `pd.DataFrame(data)` builds it:
column order author, title, website; author and title cells can be NaN
or `None` (here both `none`). -/
structure Row0 where
  author : Option String
  title : Option String
  website : String
deriving DecidableEq, Repr

/-- Positional zip of the three column lists into rows, as
`pd.DataFrame` lays out equal-length columns. -/
def zipRows : List (Option String) → List (Option String) → List String → List Row0
  | a :: as, t :: ts, w :: ws => ⟨a, t, w⟩ :: zipRows as ts ws
  | _, _, _ => []

/-- Build the rows of one listing page: run `get_author` and
`get_title_and_website`, then construct the page DataFrame; columns of
unequal length make `pd.DataFrame` raise an uncaught `ValueError`. -/
def pageRows (pg : ListingPage) : Except RunErr (List Row0) :=
  match getAuthor pg.subdetails with
  | .error e => .error e
  | .ok as =>
    match getTitleAndWebsite pg.titleLinks with
    | .error e => .error e
    | .ok tw =>
      if as.length = tw.1.length ∧ tw.1.length = tw.2.length then
        .ok (zipRows as tw.1 tw.2)
      else .error .unhandled

/-- The retry loop of `scrape_books` for one page: while fewer than 5
attempts and no success, issue the fetch; a timeout increments the
attempt counter and retries, any other `RequestException` is uncaught,
and exhausting the 5 attempts leaves the page unfetched (`none`), which
the caller skips. `fetch a` is the outcome of attempt number `a`. -/
def fetchListing (fetch : Nat → FetchOutcome ListingPage) (attempts : Nat) :
    Except RunErr (Option ListingPage) :=
  if _h : attempts < 5 then
    match fetch attempts with
    | .ok pg => .ok (some pg)
    | .timeout => fetchListing fetch (attempts + 1)
    | .netErr => .error .unhandled
  else .ok none
termination_by 5 - attempts

/-- The body of the `for page in range(1, pages + 1)` loop of
`scrape_books`: fetch page `p` (with retries starting at attempt 0);
on exhausted retries keep the accumulated table unchanged and move on;
on success append the rows of the page (`pd.concat`). -/
def pageStep (fetch : Nat → Nat → FetchOutcome ListingPage)
    (acc : List Row0) (p : Nat) : Except RunErr (List Row0) :=
  match fetchListing (fetch p) 0 with
  | .error e => .error e
  | .ok none => .ok acc
  | .ok (some pg) => (pageRows pg).map (fun rs => acc ++ rs)

/-- The page numbers `range(1, pages + 1)` iterates, in order. -/
def pagesList (pages : Nat) : List Nat := List.range' 1 pages

/-- `scrape_books`: fold the per-page step over pages 1..pages starting
from the empty table. -/
def scrapeBooks (pages : Nat) (fetch : Nat → Nat → FetchOutcome ListingPage) :
    Except RunErr (List Row0) :=
  (pagesList pages).foldlM (pageStep fetch) []

/-- The page-count computation of `__main__`: take the second-to-last
`a.page-numbers` element of the first listing page (`[-2]`, an uncaught
`IndexError` when fewer than two exist), strip dots from its text and
parse it with `int` (uncaught `ValueError` when non-numeric). `links`
holds the link texts in document order. -/
def totalPages (links : List String) : Except RunErr Nat :=
  if h : 2 ≤ links.length then
    match parseNatDigits (removeDots (links.get ⟨links.length - 2, by omega⟩)) with
    | some n => .ok n
    | none => .error .unhandled
  else .error .unhandled

/-! ## Detail pipeline: `get_book_details` / `enrich_book_data` -/

/-- One `<a>` element of the download container: its text and `href`. -/
structure DLink where
  text : String
  href : Option String
deriving DecidableEq, Repr

/-- A book detail page as the script inspects it: the text of
`div.realign#sinopsis` (`none` when the element is missing, making
`.text` raise `AttributeError`), the link texts of `div#genero`
(`none` when that div is missing), and the links of
`div#downloadContainer` (`none` when that div is missing). -/
structure DetailPage where
  sinopsis : Option String
  genero : Option (List String)
  downloads : Option (List DLink)
deriving DecidableEq, Repr

/-- The four per-row cells `get_book_details` mutates; all start as
`np.nan` placeholders (`none`). -/
structure RowDetail where
  description : Option String
  genre : Option String
  epub : Option String
  pdf : Option String
deriving DecidableEq, Repr

/-- The `for link in download_links` loop: a link whose lowercased text
contains `epub` sets the epub cell to the resolved URL, otherwise one
containing `pdf` sets the pdf cell; other links are skipped. A matching
link without `href` makes the string concatenation raise an uncaught
`TypeError`. -/
def classifyLinks (st : RowDetail) : List DLink → Except RunErr RowDetail
  | [] => .ok st
  | l :: ls =>
    if strHasSub "epub" (lowerStr l.text) then
      match l.href with
      | none => .error .unhandled
      | some h => classifyLinks { st with epub := some (baseUrl ++ h) } ls
    else if strHasSub "pdf" (lowerStr l.text) then
      match l.href with
      | none => .error .unhandled
      | some h => classifyLinks { st with pdf := some (baseUrl ++ h) } ls
    else classifyLinks st ls

/-- Result of the parse part of one `get_book_details` attempt:
success, an `AttributeError` caught by the retry loop (with the row
cells as already mutated before the raise), or an uncaught
`TypeError`. -/
inductive ParseRes where
  | ok (st : RowDetail)
  | attrErr (st : RowDetail)
  | typeErr
deriving DecidableEq, Repr

/-- The body of a successful fetch inside `get_book_details`, in source
order: assign the stripped sinopsis text to `description`, then the
slash-joined genre link texts to `genre`, then classify the download
links. Each missing container raises `AttributeError` at its own step,
after the earlier assignments have already happened. -/
def parseDetail (pg : DetailPage) (st : RowDetail) : ParseRes :=
  match pg.sinopsis with
  | none => .attrErr st
  | some d =>
    let st1 := { st with description := some (stripStr d) }
    match pg.genero with
    | none => .attrErr st1
    | some gs =>
      let st2 := { st1 with genre := some (String.intercalate " / " gs) }
      match pg.downloads with
      | none => .attrErr st2
      | some ls =>
        match classifyLinks st2 ls with
        | .error _ => .typeErr
        | .ok st3 => .ok st3

/-- The retry loop of `get_book_details`: while fewer than 5 attempts
and no success, fetch the detail page. `RequestException` (timeout
included) and `AttributeError` both count an attempt and retry, keeping
the cells as mutated so far; exhausting the attempts returns with the
cells as they stand (the row is never removed). `att a` is the fetch
outcome of attempt number `a`. -/
def detailLoop (att : Nat → FetchOutcome DetailPage) (attempts : Nat)
    (st : RowDetail) : Except RunErr RowDetail :=
  if _h : attempts < 5 then
    match att attempts with
    | .timeout => detailLoop att (attempts + 1) st
    | .netErr => detailLoop att (attempts + 1) st
    | .ok pg =>
      match parseDetail pg st with
      | .ok st2 => .ok st2
      | .attrErr st2 => detailLoop att (attempts + 1) st2
      | .typeErr => .error .unhandled
  else .ok st
termination_by 5 - attempts

/-- `get_book_details` on one row: run the retry loop from attempt 0 on
the row cells. -/
def getBookDetails (att : Nat → FetchOutcome DetailPage) (st : RowDetail) :
    Except RunErr RowDetail :=
  detailLoop att 0 st

/-- `enrich_book_data`: visit every row in order (the first row has
index `i`), mutating each in place via `get_book_details`; `att i` is
the per-attempt fetch behaviour of row `i`. -/
def enrichBookData (att : Nat → Nat → FetchOutcome DetailPage) (i : Nat) :
    List RowDetail → Except RunErr (List RowDetail)
  | [] => .ok []
  | st :: rest =>
    match getBookDetails (att i) st with
    | .error e => .error e
    | .ok st2 =>
      match enrichBookData att (i + 1) rest with
      | .error e => .error e
      | .ok rest2 => .ok (st2 :: rest2)

/-- An attempt of `get_book_details` that fails with a caught error:
a timeout or another `RequestException`, or a fetched page on which one
of the three containers (sinopsis, genero, downloadContainer) is
missing so that the parse raises `AttributeError`. -/
def attemptFails : FetchOutcome DetailPage → Bool
  | .timeout => true
  | .netErr => true
  | .ok pg => pg.sinopsis.isNone || pg.genero.isNone || pg.downloads.isNone

/-- Whether one `div.subdetail` element makes `get_author` append an
entry: yes when the anchor is missing (the caught `AttributeError`
appends NaN) and when the anchor href contains `autor` (the name is
appended); no when the anchor exists but its href lacks `autor`. -/
def authorContributes (sd : Subdetail) : Bool :=
  match sd.link with
  | none => true
  | some a =>
    match a.href with
    | none => false
    | some hr => strHasSub "autor" hr

/-! ## CSV persistence

The script persists the table with `to_csv(..., index=False,
encoding="utf-8-sig")` over the column order author, title, website,
genre, description, epub, pdf (the three listing columns plus the four
placeholder columns added in that order). The codec below follows the
CSV conventions that call relies on: one header line, one line per row,
comma-separated cells, minimal quoting (a cell containing a comma,
quote, CR or LF is wrapped in quotes with inner quotes doubled), and
NaN written as the empty cell. The byte-order mark of `utf-8-sig`
affects the byte stream only, never a cell, and is omitted. -/

/-- The double-quote character, written via its code point. -/
def quoteChar : Char := Char.ofNat 34

/-- A cell needing quotes: it contains a comma, a quote, a LF or a CR. -/
def isSpecialChar (c : Char) : Bool :=
  c = ',' || c = quoteChar || c = '\n' || c = '\r'

/-- Double every quote of a quoted cell body. -/
def escapeChars : List Char → List Char
  | [] => []
  | c :: cs =>
    if c = quoteChar then quoteChar :: quoteChar :: escapeChars cs
    else c :: escapeChars cs

/-- The characters a cell holds: NaN is the empty cell. -/
def fieldChars : Option String → List Char
  | none => []
  | some s => s.toList

/-- The string a cell holds after writing: NaN becomes empty. -/
def fieldStr (f : Option String) : String := String.mk (fieldChars f)

/-- Encode one cell with minimal quoting. -/
def encodeFieldChars (f : Option String) : List Char :=
  match f with
  | none => []
  | some s =>
    if s.toList.any isSpecialChar then
      quoteChar :: (escapeChars s.toList ++ [quoteChar])
    else s.toList

/-- Encode the cells of one record, comma-separated. -/
def encodeFieldsChars : List (Option String) → List Char
  | [] => []
  | [f] => encodeFieldChars f
  | f :: fs => encodeFieldChars f ++ ',' :: encodeFieldsChars fs

/-- Encode records, each terminated by a LF. -/
def encodeRecordsChars : List (List (Option String)) → List Char
  | [] => []
  | r :: rs => encodeFieldsChars r ++ '\n' :: encodeRecordsChars rs

/-- One row of the final table in the CSV schema order: author, title,
website, genre, description, epub, pdf. -/
structure BookRow where
  author : Option String
  title : Option String
  website : Option String
  genre : Option String
  description : Option String
  epub : Option String
  pdf : Option String
deriving DecidableEq, Repr

/-- The cells of a row in schema column order. -/
def rowFields (r : BookRow) : List (Option String) :=
  [r.author, r.title, r.website, r.genre, r.description, r.epub, r.pdf]

/-- The column names, in the order the script lays them out. -/
def headerFields : List String :=
  ["author", "title", "website", "genre", "description", "epub", "pdf"]

/-- The header record. -/
def headerFieldOpts : List (Option String) := headerFields.map some

/-- `books_df.to_csv(path, index=False, encoding="utf-8-sig")`: header
line, then one line per row in table order. -/
def writeCsv (tbl : List BookRow) : String :=
  String.mk (encodeRecordsChars (headerFieldOpts :: tbl.map rowFields))

/-- Scanner state: in a bare cell, inside a quoted cell body, or just
after a quote that may close the body or be the first half of a
doubled quote. -/
inductive ScanMode where
  | bare
  | quoted
  | closed
deriving DecidableEq, Repr

/-- Modelled from the spec: the round-trip property of section 8 reads
the CSV back, but the repository contains no reader; this scanner is
the inverse convention of the writer (`pd.read_csv` restricted to the
string/NaN cells this table holds). It walks the characters once as a
small state machine (outside quotes, inside quotes, or just after a
closing quote), accumulating the current cell (reversed) and the cells
of the current record (reversed): inside quotes a quote closes the
cell body, but a quote right after it reopens the body with a literal
quote (the doubled-quote escape); outside quotes a quote opens a body,
a comma ends the cell, a LF ends the record, and end of input flushes
whatever is pending. -/
def csvScan (mode : ScanMode) (field : List Char) (rec : List String) :
    List Char → List (List String)
  | [] =>
    if field.isEmpty && rec.isEmpty then []
    else [(String.mk field.reverse :: rec).reverse]
  | c :: cs =>
    match mode with
    | .quoted =>
      if c = quoteChar then csvScan .closed field rec cs
      else csvScan .quoted (c :: field) rec cs
    | .closed =>
      if c = quoteChar then csvScan .quoted (quoteChar :: field) rec cs
      else if c = ',' then
        csvScan .bare [] (String.mk field.reverse :: rec) cs
      else if c = '\n' then
        (String.mk field.reverse :: rec).reverse :: csvScan .bare [] [] cs
      else csvScan .bare (c :: field) rec cs
    | .bare =>
      if c = quoteChar then csvScan .quoted field rec cs
      else if c = ',' then
        csvScan .bare [] (String.mk field.reverse :: rec) cs
      else if c = '\n' then
        (String.mk field.reverse :: rec).reverse :: csvScan .bare [] [] cs
      else csvScan .bare (c :: field) rec cs

/-- Modelled from the spec: an empty cell reads back as NaN (`none`),
any other cell as its string — the "modulo the representation of null
values" of the round-trip property. -/
def decodeField (s : String) : Option String :=
  if s = "" then none else some s

/-- Modelled from the spec: rebuild a `BookRow` from the seven cells of
one CSV record. -/
def rowOfFields : List String → Option BookRow
  | [a, t, w, g, d, e, p] =>
    some ⟨decodeField a, decodeField t, decodeField w, decodeField g,
          decodeField d, decodeField e, decodeField p⟩
  | _ => none

/-- Modelled from the spec: rebuild every row, failing when any record
does not have exactly the seven schema cells. -/
def rowsOfRecs : List (List String) → Option (List BookRow)
  | [] => some []
  | r :: rs =>
    match rowOfFields r with
    | none => none
    | some row =>
      match rowsOfRecs rs with
      | none => none
      | some rows => some (row :: rows)

/-- Modelled from the spec: read the CSV back — scan the records, check
the header, rebuild each row. -/
def readCsv (s : String) : Option (List BookRow) :=
  match csvScan .bare [] [] s.toList with
  | [] => none
  | header :: recs =>
    if header = headerFields then rowsOfRecs recs else none

/-- Null-representation normalisation of one cell: an empty string is
indistinguishable from NaN after a round trip. -/
def normField : Option String → Option String
  | none => none
  | some s => if s = "" then none else some s

/-- Null-representation normalisation of a row, cell by cell. -/
def normRow (r : BookRow) : BookRow :=
  ⟨normField r.author, normField r.title, normField r.website,
   normField r.genre, normField r.description, normField r.epub,
   normField r.pdf⟩

/-! ## Concrete inputs for witnesses and counterexamples -/

/-- A listing page with three books (the third without an author
anchor), as in the end-to-end scenario of the spec. -/
def samplePage : ListingPage where
  subdetails :=
    [⟨some ⟨some "/autor/garcia", "Garcia"⟩⟩,
     ⟨some ⟨some "/autor/cervantes", "Cervantes"⟩⟩,
     ⟨none⟩]
  titleLinks :=
    [⟨some "T1", some "/book/t1"⟩,
     ⟨some "T2", some "/book/t2"⟩,
     ⟨some "T3", some "/book/t3"⟩]

/-- A two-page site: page 1 succeeds with `samplePage`, page 2 times
out on every attempt. -/
def fetchW : Nat → Nat → FetchOutcome ListingPage :=
  fun p _ => if p = 1 then .ok samplePage else .timeout

/-- A listing fetch whose first attempt raises a non-timeout network
error. -/
def fetchNetErr : Nat → FetchOutcome ListingPage := fun _ => .netErr

/-- A detail fetch that times out on every attempt. -/
def attTimeout : Nat → FetchOutcome DetailPage := fun _ => .timeout

/-- A detail fetch that raises a non-timeout network error on the first
attempt and times out afterwards. -/
def attNetErr : Nat → FetchOutcome DetailPage :=
  fun a => if a = 0 then .netErr else .timeout

/-- A detail page whose sinopsis container is present but whose genero
container is missing: every attempt assigns the description and then
raises `AttributeError`. -/
def cexDetailPage : DetailPage := ⟨some "Sinopsis.", none, none⟩

/-- A detail fetch that always returns `cexDetailPage`. -/
def cexAtt : Nat → FetchOutcome DetailPage := fun _ => .ok cexDetailPage

/-- The all-NaN row the enrichment placeholders create. -/
def blankRow : RowDetail := ⟨none, none, none, none⟩

/-- The three download links of the classification property: one EPUB
link, one PDF link, one unrelated link. -/
def sampleDownloads : List DLink :=
  [⟨"Descargar EPUB", some "/get/e1"⟩,
   ⟨"Descargar PDF", some "/get/p1"⟩,
   ⟨"Unrelated", some "/other"⟩]

/-- A download link whose text mentions both formats. -/
def dualLink : DLink := ⟨"Descargar EPUB y PDF", some "/get/dual"⟩

/-! ## Retry-loop lemmas for the listing path -/

theorem fetchListing_timeout_step (fetch : Nat → FetchOutcome ListingPage)
    (j : Nat) (hj : j < 5) (ht : fetch j = .timeout) :
    fetchListing fetch j = fetchListing fetch (j + 1) := by
  conv_lhs => rw [fetchListing]
  simp [hj, ht]

theorem fetchListing_exhaust (fetch : Nat → FetchOutcome ListingPage)
    (j : Nat) (hj : ¬ j < 5) :
    fetchListing fetch j = Except.ok none := by
  rw [fetchListing]
  simp [hj]

theorem fetchListing_allTimeout (fetch : Nat → FetchOutcome ListingPage)
    (h : ∀ a, a < 5 → fetch a = .timeout) :
    ∀ j, fetchListing fetch j = Except.ok none := by
  have key : ∀ fuel j, 5 - j ≤ fuel → fetchListing fetch j = Except.ok none := by
    intro fuel
    induction fuel with
    | zero =>
      intro j hj
      exact fetchListing_exhaust fetch j (by omega)
    | succ n ih =>
      intro j hj
      by_cases hlt : j < 5
      · rw [fetchListing_timeout_step fetch j hlt (h j hlt)]
        exact ih (j + 1) (by omega)
      · exact fetchListing_exhaust fetch j hlt
  exact fun j => key 5 j (by omega)

theorem fetchListing_walk (fetch : Nat → FetchOutcome ListingPage)
    (k : Nat) (hk : k ≤ 5) (h : ∀ a, a < k → fetch a = .timeout) :
    fetchListing fetch 0 = fetchListing fetch k := by
  induction k with
  | zero => rfl
  | succ n ih =>
    rw [ih (by omega) (fun a ha => h a (by omega)),
      fetchListing_timeout_step fetch n (by omega) (h n (by omega))]

theorem fetchListing_netErrAt (fetch : Nat → FetchOutcome ListingPage)
    (k : Nat) (hk : k < 5) (hto : ∀ a, a < k → fetch a = .timeout)
    (hne : fetch k = .netErr) :
    fetchListing fetch 0 = Except.error RunErr.unhandled := by
  rw [fetchListing_walk fetch k (by omega) hto]
  rw [fetchListing]
  simp [hk, hne]

/-! ## Retry-loop lemmas for the detail path -/

theorem detailLoop_timeout_step (att : Nat → FetchOutcome DetailPage)
    (j : Nat) (st : RowDetail) (hj : j < 5) (h : att j = .timeout) :
    detailLoop att j st = detailLoop att (j + 1) st := by
  conv_lhs => rw [detailLoop]
  simp [hj, h]

theorem detailLoop_netErr_step (att : Nat → FetchOutcome DetailPage)
    (j : Nat) (st : RowDetail) (hj : j < 5) (h : att j = .netErr) :
    detailLoop att j st = detailLoop att (j + 1) st := by
  conv_lhs => rw [detailLoop]
  simp [hj, h]

theorem detailLoop_attrErr_step (att : Nat → FetchOutcome DetailPage)
    (j : Nat) (st : RowDetail) (pg : DetailPage) (st2 : RowDetail)
    (hj : j < 5) (hok : att j = .ok pg)
    (hp : parseDetail pg st = .attrErr st2) :
    detailLoop att j st = detailLoop att (j + 1) st2 := by
  conv_lhs => rw [detailLoop]
  simp [hj, hok, hp]

theorem detailLoop_exhaust (att : Nat → FetchOutcome DetailPage)
    (j : Nat) (st : RowDetail) (hj : ¬ j < 5) :
    detailLoop att j st = Except.ok st := by
  rw [detailLoop]
  simp [hj]

theorem detailLoop_allTimeout (att : Nat → FetchOutcome DetailPage)
    (st : RowDetail) (h : ∀ a, a < 5 → att a = .timeout) :
    ∀ j, detailLoop att j st = Except.ok st := by
  have key : ∀ fuel j, 5 - j ≤ fuel → detailLoop att j st = Except.ok st := by
    intro fuel
    induction fuel with
    | zero =>
      intro j hj
      exact detailLoop_exhaust att j st (by omega)
    | succ n ih =>
      intro j hj
      by_cases hlt : j < 5
      · rw [detailLoop_timeout_step att j st hlt (h j hlt)]
        exact ih (j + 1) (by omega)
      · exact detailLoop_exhaust att j st hlt
  exact fun j => key 5 j (by omega)

theorem parseDetail_fails (pg : DetailPage) (st : RowDetail)
    (h : attemptFails (.ok pg) = true) :
    ∃ st2, parseDetail pg st = .attrErr st2 ∧
      st2.epub = st.epub ∧ st2.pdf = st.pdf := by
  rcases hpg : pg.sinopsis with _ | d
  · exact ⟨st, by simp [parseDetail, hpg], rfl, rfl⟩
  · rcases hg : pg.genero with _ | gs
    · exact ⟨{ st with description := some (stripStr d) },
        by simp [parseDetail, hpg, hg], rfl, rfl⟩
    · rcases hd : pg.downloads with _ | ls
      · have hps : parseDetail pg st = ParseRes.attrErr
            { st with
              description := some (stripStr d)
              genre := some (String.intercalate " / " gs) } := by
          simp [parseDetail, hpg, hg, hd]
        exact ⟨_, hps, rfl, rfl⟩
      · exfalso
        simp [attemptFails, hpg, hg, hd] at h

theorem detailLoop_failsPreserves (att : Nat → FetchOutcome DetailPage)
    (h : ∀ a, a < 5 → attemptFails (att a) = true) :
    ∀ fuel j st, 5 - j ≤ fuel →
      ∃ st2, detailLoop att j st = Except.ok st2 ∧
        st2.epub = st.epub ∧ st2.pdf = st.pdf := by
  intro fuel
  induction fuel with
  | zero =>
    intro j st hj
    exact ⟨st, detailLoop_exhaust att j st (by omega), rfl, rfl⟩
  | succ n ih =>
    intro j st hj
    by_cases hlt : j < 5
    · have hf := h j hlt
      cases hatt : att j with
      | timeout =>
        rw [detailLoop_timeout_step att j st hlt hatt]
        exact ih (j + 1) st (by omega)
      | netErr =>
        rw [detailLoop_netErr_step att j st hlt hatt]
        exact ih (j + 1) st (by omega)
      | ok pg =>
        rw [hatt] at hf
        obtain ⟨st2, hp, he, hpd⟩ := parseDetail_fails pg st hf
        rw [detailLoop_attrErr_step att j st pg st2 hlt hatt hp]
        obtain ⟨st3, h3, he3, hp3⟩ := ih (j + 1) st2 (by omega)
        exact ⟨st3, h3, by rw [he3, he], by rw [hp3, hpd]⟩
    · exact ⟨st, detailLoop_exhaust att j st hlt, rfl, rfl⟩

theorem enrichBookData_single (att : Nat → FetchOutcome DetailPage)
    (st st2 : RowDetail) (h : getBookDetails att st = Except.ok st2) :
    enrichBookData (fun _ => att) 0 [st] = Except.ok [st2] := by
  simp [enrichBookData, h]

/-! ## Claim theorems: retry behaviour -/

/-- C1: a listing page whose fetch times out on all 5 attempts
contributes zero rows to the accumulated table — the loop body returns
the accumulator unchanged, with no error, so the fold proceeds to the
next page number and the run is not terminated. -/
theorem scrape_timeout_page_yields_no_rows
    (fetch : Nat → Nat → FetchOutcome ListingPage) (p : Nat)
    (acc : List Row0) (pages : Nat)
    (h : ∀ a, a < 5 → fetch p a = FetchOutcome.timeout) :
    pageStep fetch acc p = Except.ok acc ∧
    scrapeBooks pages fetch = (pagesList pages).foldlM (pageStep fetch) [] := by
  have hf := fetchListing_allTimeout (fetch p) h 0
  exact ⟨by simp [pageStep, hf], rfl⟩

theorem scrape_timeout_page_yields_no_rows_witness :
    (∀ a, a < 5 → fetchW 2 a = FetchOutcome.timeout) ∧
    pageStep fetchW [] 2 = Except.ok [] ∧
    scrapeBooks 2 fetchW = (pagesList 2).foldlM (pageStep fetchW) [] := by
  have h : ∀ a, a < 5 → fetchW 2 a = FetchOutcome.timeout := by decide
  have hc := scrape_timeout_page_yields_no_rows fetchW 2 [] 2 h
  exact ⟨h, hc.1, hc.2⟩

/-- C3: a detail fetch that times out on all 5 attempts leaves the
row's description, genre, epub and pdf cells exactly as they were, and
the row is still present in the enriched table. -/
theorem detail_timeouts_leave_row_unchanged
    (att : Nat → FetchOutcome DetailPage) (st : RowDetail)
    (h : ∀ a, a < 5 → att a = FetchOutcome.timeout) :
    getBookDetails att st = Except.ok st ∧
    enrichBookData (fun _ => att) 0 [st] = Except.ok [st] := by
  have hd : getBookDetails att st = Except.ok st :=
    detailLoop_allTimeout att st h 0
  exact ⟨hd, enrichBookData_single att st st hd⟩

theorem detail_timeouts_leave_row_unchanged_witness :
    (∀ a, a < 5 → attTimeout a = FetchOutcome.timeout) ∧
    getBookDetails attTimeout blankRow = Except.ok blankRow ∧
    enrichBookData (fun _ => attTimeout) 0 [blankRow] = Except.ok [blankRow] := by
  have h : ∀ a, a < 5 → attTimeout a = FetchOutcome.timeout := by decide
  have hc := detail_timeouts_leave_row_unchanged attTimeout blankRow h
  exact ⟨h, hc.1, hc.2⟩

/-- C2 is false as stated: an attempt can fail with a structural-absence
error after it has already assigned the description — with a detail page
whose sinopsis container exists but whose genero container is missing,
all 5 attempts fail with `AttributeError`, yet after the call the
description cell holds the sinopsis text instead of its prior null. -/
theorem detail_exhaustion_mutates_description_cex :
    (∀ a, a < 5 → attemptFails (cexAtt a) = true) ∧
    getBookDetails cexAtt blankRow =
      Except.ok ⟨some "Sinopsis.", none, none, none⟩ ∧
    (⟨some "Sinopsis.", none, none, none⟩ : RowDetail).description ≠
      blankRow.description := by
  refine ⟨by decide, ?_, by decide⟩
  have hp0 : parseDetail cexDetailPage blankRow =
      ParseRes.attrErr ⟨some "Sinopsis.", none, none, none⟩ := by decide
  have hp1 : parseDetail cexDetailPage ⟨some "Sinopsis.", none, none, none⟩ =
      ParseRes.attrErr ⟨some "Sinopsis.", none, none, none⟩ := by decide
  show detailLoop cexAtt 0 blankRow = _
  rw [detailLoop_attrErr_step cexAtt 0 blankRow cexDetailPage _ (by omega) rfl hp0,
    detailLoop_attrErr_step cexAtt 1 _ cexDetailPage _ (by omega) rfl hp1,
    detailLoop_attrErr_step cexAtt 2 _ cexDetailPage _ (by omega) rfl hp1,
    detailLoop_attrErr_step cexAtt 3 _ cexDetailPage _ (by omega) rfl hp1,
    detailLoop_attrErr_step cexAtt 4 _ cexDetailPage _ (by omega) rfl hp1]
  exact detailLoop_exhaust cexAtt 5 _ (by omega)

/-- C2 (amended): if `get_book_details` exhausts its 5 attempts, each
failing with a network error or a structural-absence error, then after
the call the row's epub and pdf cells equal their values before the
call and the row is still present in the table; the description and
genre cells, however, may have been overwritten by attempts that
fetched a page successfully and failed only at a later parse step. -/
theorem detail_exhaustion_preserves_epub_pdf
    (att : Nat → FetchOutcome DetailPage) (st : RowDetail)
    (h : ∀ a, a < 5 → attemptFails (att a) = true) :
    ∃ st2, getBookDetails att st = Except.ok st2 ∧
      st2.epub = st.epub ∧ st2.pdf = st.pdf ∧
      enrichBookData (fun _ => att) 0 [st] = Except.ok [st2] := by
  obtain ⟨st2, h2, he, hp⟩ := detailLoop_failsPreserves att h 5 0 st (by omega)
  exact ⟨st2, h2, he, hp, enrichBookData_single att st st2 h2⟩

theorem detail_exhaustion_preserves_epub_pdf_witness :
    (∀ a, a < 5 → attemptFails (attNetErr a) = true) ∧
    ∃ st2, getBookDetails attNetErr blankRow = Except.ok st2 ∧
      st2.epub = blankRow.epub ∧ st2.pdf = blankRow.pdf ∧
      enrichBookData (fun _ => attNetErr) 0 [blankRow] = Except.ok [st2] := by
  have h : ∀ a, a < 5 → attemptFails (attNetErr a) = true := by decide
  exact ⟨h, detail_exhaustion_preserves_epub_pdf attNetErr blankRow h⟩

/-- C6: in the listing path only timeouts are retried — a non-timeout
network error at any attempt (here after `k` timeouts) is uncaught and
terminates the run; in the detail path a non-timeout network error at
attempt `j` is caught, counts the attempt, and the loop retries with
the row state unchanged. -/
theorem retry_policy_listing_vs_detail
    (fetch : Nat → FetchOutcome ListingPage)
    (att : Nat → FetchOutcome DetailPage) (k j : Nat) (st : RowDetail)
    (hk : k < 5) (hto : ∀ a, a < k → fetch a = FetchOutcome.timeout)
    (hne : fetch k = FetchOutcome.netErr)
    (hj : j < 5) (hatt : att j = FetchOutcome.netErr) :
    fetchListing fetch 0 = Except.error RunErr.unhandled ∧
    detailLoop att j st = detailLoop att (j + 1) st :=
  ⟨fetchListing_netErrAt fetch k hk hto hne,
   detailLoop_netErr_step att j st hj hatt⟩

theorem retry_policy_listing_vs_detail_witness :
    (0 : Nat) < 5 ∧ fetchNetErr 0 = FetchOutcome.netErr ∧
    attNetErr 0 = FetchOutcome.netErr ∧
    fetchListing fetchNetErr 0 = Except.error RunErr.unhandled ∧
    detailLoop attNetErr 0 blankRow = detailLoop attNetErr 1 blankRow := by
  have hc := retry_policy_listing_vs_detail fetchNetErr attNetErr 0 0 blankRow
    (by omega) (fun a ha => absurd ha (Nat.not_lt_zero a)) rfl (by omega) rfl
  exact ⟨by omega, rfl, rfl, hc.1, hc.2⟩

/-! ## Claim theorems: download-link classification -/

/-- C5: on a download container with exactly the links "Descargar
EPUB", "Descargar PDF" and "Unrelated", the classification assigns the
first link's resolved URL to the epub cell and the second link's
resolved URL to the pdf cell, and the third link is assigned to no
cell: the resulting row state holds nothing derived from it. -/
theorem download_links_classification :
    classifyLinks blankRow sampleDownloads =
      Except.ok
        ⟨none, none, some (baseUrl ++ "/get/e1"),
         some (baseUrl ++ "/get/p1")⟩ := by
  decide

/-- C10: a download link whose lowercased text contains both "epub" and
"pdf" reaches only the epub branch of the if/elif — the epub cell gets
its resolved URL and the pdf cell is left exactly as it was. -/
theorem dual_match_assigns_epub_only (st : RowDetail) (l : DLink)
    (u : String)
    (h1 : strHasSub "epub" (lowerStr l.text) = true)
    (h2 : strHasSub "pdf" (lowerStr l.text) = true)
    (hh : l.href = some u) :
    classifyLinks st [l] =
      Except.ok { st with epub := some (baseUrl ++ u) } ∧
    ({ st with epub := some (baseUrl ++ u) } : RowDetail).pdf = st.pdf := by
  exact ⟨by simp [classifyLinks, h1, hh], rfl⟩

theorem dual_match_assigns_epub_only_witness :
    strHasSub "epub" (lowerStr dualLink.text) = true ∧
    strHasSub "pdf" (lowerStr dualLink.text) = true ∧
    dualLink.href = some "/get/dual" ∧
    classifyLinks blankRow [dualLink] =
      Except.ok { blankRow with epub := some (baseUrl ++ "/get/dual") } ∧
    ({ blankRow with epub := some (baseUrl ++ "/get/dual") } :
        RowDetail).pdf = blankRow.pdf := by
  have hc := dual_match_assigns_epub_only blankRow dualLink "/get/dual"
    (by decide) (by decide) rfl
  exact ⟨by decide, by decide, rfl, hc.1, hc.2⟩

/-! ## Claim theorems: author extraction -/

/-- C7 is false as stated: a `div.subdetail` whose anchor exists but
whose href does not contain the author marker contributes no entry at
all — here one attribution element yields an empty author sequence,
not a one-entry sequence. -/
theorem author_contribution_cex :
    getAuthor [⟨some ⟨some "/libro/x", "Name"⟩⟩] = Except.ok [] ∧
    ([] : List (Option String)).length ≠
      [Subdetail.mk (some ⟨some "/libro/x", "Name"⟩)].length := by
  exact ⟨by decide, by decide⟩

/-- C7 (amended): each attribution element contributes at most one
entry to the author sequence — exactly one when its anchor is missing
(a null) or its anchor href contains the author marker (the name), and
none when the anchor exists but its href lacks the marker; hence the
sequence is no longer than the element list, with equality when every
element is of a contributing kind. -/
theorem author_contribution_amended (sds : List Subdetail)
    (l : List (Option String)) (h : getAuthor sds = Except.ok l) :
    l.length ≤ sds.length ∧
    ((∀ sd ∈ sds, authorContributes sd = true) →
      l.length = sds.length) := by
  induction sds generalizing l with
  | nil =>
    simp [getAuthor] at h
    simp [← h]
  | cons sd rest ih =>
    cases hsd : sd.link with
    | none =>
      cases hr : getAuthor rest with
      | error e => simp [getAuthor, hsd, hr, Except.map] at h
      | ok l' =>
        simp [getAuthor, hsd, hr, Except.map] at h
        obtain ⟨ih1, ih2⟩ := ih l' hr
        constructor
        · simp [← h, ih1]
        · intro hall
          have := ih2 (fun x hx => hall x (by simp [hx]))
          simp [← h, this]
    | some a =>
      cases hra : a.href with
      | none => simp [getAuthor, hsd, hra] at h
      | some hrf =>
        by_cases hsub : strHasSub "autor" hrf = true
        · cases hr : getAuthor rest with
          | error e => simp [getAuthor, hsd, hra, hsub, hr, Except.map] at h
          | ok l' =>
            simp [getAuthor, hsd, hra, hsub, hr, Except.map] at h
            obtain ⟨ih1, ih2⟩ := ih l' hr
            constructor
            · simp [← h, ih1]
            · intro hall
              have := ih2 (fun x hx => hall x (by simp [hx]))
              simp [← h, this]
        · have hne : strHasSub "autor" hrf = false := by
            simpa using hsub
          rw [show getAuthor (sd :: rest) = getAuthor rest by
            simp [getAuthor, hsd, hra, hne]] at h
          obtain ⟨ih1, ih2⟩ := ih l h
          constructor
          · simp; omega
          · intro hall
            have hc := hall sd (by simp)
            simp [authorContributes, hsd, hra, hne] at hc

theorem author_contribution_amended_witness :
    getAuthor samplePage.subdetails =
      Except.ok [some "Garcia", some "Cervantes", none] ∧
    ([some "Garcia", some "Cervantes", none] :
        List (Option String)).length ≤ samplePage.subdetails.length ∧
    ((∀ sd ∈ samplePage.subdetails, authorContributes sd = true) →
      ([some "Garcia", some "Cervantes", none] :
          List (Option String)).length = samplePage.subdetails.length) := by
  have h : getAuthor samplePage.subdetails =
      Except.ok [some "Garcia", some "Cervantes", none] := by decide
  have hc := author_contribution_amended samplePage.subdetails _ h
  exact ⟨h, hc.1, hc.2⟩

/-! ## Claim theorems: positional zip of listing rows -/

theorem getTitleAndWebsite_lengths (L : List TitleLink) :
    ∀ ts ws, getTitleAndWebsite L = Except.ok (ts, ws) →
      ts.length = L.length ∧ ws.length = L.length := by
  induction L with
  | nil =>
    intro ts ws h
    simp [getTitleAndWebsite] at h
    simp [← h.1, ← h.2]
  | cons l rest ih =>
    intro ts ws h
    cases hr : l.href with
    | none => simp [getTitleAndWebsite, hr] at h
    | some u =>
      cases htw : getTitleAndWebsite rest with
      | error e => simp [getTitleAndWebsite, hr, htw, Except.map] at h
      | ok tw =>
        simp [getTitleAndWebsite, hr, htw, Except.map] at h
        obtain ⟨h1, h2⟩ := ih tw.1 tw.2 (by rw [htw])
        simp [← h.1, ← h.2, h1, h2]

theorem zipRows_length :
    ∀ (as ts : List (Option String)) (ws : List String),
      as.length = ts.length → ts.length = ws.length →
      (zipRows as ts ws).length = as.length := by
  intro as
  induction as with
  | nil => intro ts ws _ _; simp [zipRows]
  | cons a as ih =>
    intro ts ws h1 h2
    cases ts with
    | nil => simp at h1
    | cons t ts =>
      cases ws with
      | nil => simp at h2
      | cons w ws =>
        simp [zipRows]
        exact ih ts ws (by simpa using h1) (by simpa using h2)

theorem zipRows_getElem :
    ∀ (as ts : List (Option String)) (ws : List String) (i : Nat)
      (a t : Option String) (w : String),
      as[i]? = some a → ts[i]? = some t → ws[i]? = some w →
      (zipRows as ts ws)[i]? = some ⟨a, t, w⟩ := by
  intro as
  induction as with
  | nil => intro ts ws i a t w h1 _ _; simp at h1
  | cons a0 as ih =>
    intro ts ws i a t w h1 h2 h3
    cases ts with
    | nil => simp at h2
    | cons t0 ts =>
      cases ws with
      | nil => simp at h3
      | cons w0 ws =>
        cases i with
        | zero =>
          simp at h1 h2 h3
          simp [zipRows, h1, h2, h3]
        | succ n =>
          simp at h1 h2 h3
          simpa [zipRows] using ih ts ws n a t w h1 h2 h3

/-- C4: on a successfully fetched listing page with `N` title links,
whose author extraction yields `N` entries, the page produces exactly
`N` rows, and the row at position `i` holds the position-`i` author,
title and website. -/
theorem listing_rows_positional_zip (pg : ListingPage)
    (as ts : List (Option String)) (ws : List String) (N i : Nat)
    (a t : Option String) (w : String)
    (ha : getAuthor pg.subdetails = Except.ok as)
    (htw : getTitleAndWebsite pg.titleLinks = Except.ok (ts, ws))
    (hN : pg.titleLinks.length = N) (haN : as.length = N)
    (hia : as[i]? = some a) (hit : ts[i]? = some t)
    (hiw : ws[i]? = some w) :
    ∃ rows, pageRows pg = Except.ok rows ∧ rows.length = N ∧
      rows[i]? = some ⟨a, t, w⟩ := by
  obtain ⟨hts, hws⟩ := getTitleAndWebsite_lengths pg.titleLinks ts ws htw
  have hlen1 : as.length = ts.length := by omega
  have hlen2 : ts.length = ws.length := by omega
  refine ⟨zipRows as ts ws, ?_, ?_, ?_⟩
  · simp [pageRows, ha, htw, hlen1, hlen2]
  · rw [zipRows_length as ts ws hlen1 hlen2, haN]
  · exact zipRows_getElem as ts ws i a t w hia hit hiw

theorem listing_rows_positional_zip_witness :
    getAuthor samplePage.subdetails =
      Except.ok [some "Garcia", some "Cervantes", none] ∧
    getTitleAndWebsite samplePage.titleLinks =
      Except.ok ([some "T1", some "T2", some "T3"],
        ["https://www.lectulandia.co/book/t1",
         "https://www.lectulandia.co/book/t2",
         "https://www.lectulandia.co/book/t3"]) ∧
    ∃ rows, pageRows samplePage = Except.ok rows ∧ rows.length = 3 ∧
      rows[1]? = some ⟨some "Cervantes", some "T2",
        "https://www.lectulandia.co/book/t2"⟩ := by
  have h1 : getAuthor samplePage.subdetails =
      Except.ok [some "Garcia", some "Cervantes", none] := by decide
  have h2 : getTitleAndWebsite samplePage.titleLinks =
      Except.ok ([some "T1", some "T2", some "T3"],
        ["https://www.lectulandia.co/book/t1",
         "https://www.lectulandia.co/book/t2",
         "https://www.lectulandia.co/book/t3"]) := by decide
  exact ⟨h1, h2,
    listing_rows_positional_zip samplePage _ _ _ 3 1 _ _ _ h1 h2
      (by decide) (by decide) (by decide) (by decide) (by decide)⟩

/-! ## Claim theorems: pagination -/

theorem pagesList_pairwise (N : Nat) :
    List.Pairwise (· < ·) (pagesList N) :=
  List.pairwise_lt_range' 1 N

/-- C8: the total page count parsed by the driver is the numeric value
(dots removed) of the second-to-last pagination link of the first
listing page, and the page numbers the scrape loop folds over are
exactly 1..N in strictly increasing order — no page is visited
twice. -/
theorem pagination_count_and_order (links : List String) (N : Nat)
    (fetch : Nat → Nat → FetchOutcome ListingPage)
    (h : totalPages links = Except.ok N) :
    2 ≤ links.length ∧
    (∃ s, links[links.length - 2]? = some s ∧
      parseNatDigits (removeDots s) = some N) ∧
    List.Pairwise (· < ·) (pagesList N) ∧
    (∀ q, q ∈ pagesList N ↔ 1 ≤ q ∧ q ≤ N) ∧
    scrapeBooks N fetch = (pagesList N).foldlM (pageStep fetch) [] := by
  unfold totalPages at h
  split at h
  case isFalse => cases h
  case isTrue hl =>
    refine ⟨hl, ?_, pagesList_pairwise N, ?_, rfl⟩
    · split at h
      case h_2 => cases h
      case h_1 n hp =>
        refine ⟨links.get ⟨links.length - 2, by omega⟩, ?_, ?_⟩
        · rw [List.get_eq_getElem]
          exact List.getElem?_eq_getElem (by omega)
        · rw [hp]
          cases h
          rfl
    · intro q
      rw [pagesList, List.mem_range'_1]
      omega

theorem pagination_count_and_order_witness :
    totalPages ["1", "2", "3", "1.234", "Next"] = Except.ok 1234 ∧
    2 ≤ (["1", "2", "3", "1.234", "Next"] : List String).length ∧
    (∃ s, (["1", "2", "3", "1.234", "Next"] :
        List String)[(["1", "2", "3", "1.234", "Next"] :
        List String).length - 2]? = some s ∧
      parseNatDigits (removeDots s) = some 1234) ∧
    List.Pairwise (· < ·) (pagesList 1234) ∧
    (∀ q, q ∈ pagesList 1234 ↔ 1 ≤ q ∧ q ≤ 1234) ∧
    scrapeBooks 1234 fetchW =
      (pagesList 1234).foldlM (pageStep fetchW) [] := by
  have h : totalPages ["1", "2", "3", "1.234", "Next"] =
      Except.ok 1234 := by decide
  have hc := pagination_count_and_order ["1", "2", "3", "1.234", "Next"]
    1234 fetchW h
  exact ⟨h, hc.1, hc.2.1, hc.2.2.1, hc.2.2.2.1, hc.2.2.2.2⟩

/-! ## CSV round-trip lemmas -/

theorem comma_ne_quote : (',' : Char) ≠ quoteChar := by decide

theorem newline_ne_quote : ('\n' : Char) ≠ quoteChar := by decide

theorem newline_ne_comma : ('\n' : Char) ≠ ',' := by decide

theorem csvScan_bare_quote (field : List Char) (rec : List String)
    (cs : List Char) :
    csvScan .bare field rec (quoteChar :: cs) =
      csvScan .quoted field rec cs := by
  conv_lhs => rw [csvScan]
  simp

theorem csvScan_bare_comma (field : List Char) (rec : List String)
    (cs : List Char) :
    csvScan .bare field rec (',' :: cs) =
      csvScan .bare [] (String.mk field.reverse :: rec) cs := by
  conv_lhs => rw [csvScan]
  simp [comma_ne_quote]

theorem csvScan_bare_newline (field : List Char) (rec : List String)
    (cs : List Char) :
    csvScan .bare field rec ('\n' :: cs) =
      (String.mk field.reverse :: rec).reverse :: csvScan .bare [] [] cs := by
  conv_lhs => rw [csvScan]
  simp [newline_ne_quote, newline_ne_comma]

theorem csvScan_bare_other (field : List Char) (rec : List String)
    (c : Char) (cs : List Char) (h1 : ¬ c = quoteChar) (h2 : ¬ c = ',')
    (h3 : ¬ c = '\n') :
    csvScan .bare field rec (c :: cs) =
      csvScan .bare (c :: field) rec cs := by
  conv_lhs => rw [csvScan]
  simp [h1, h2, h3]

theorem csvScan_quoted_quote (field : List Char) (rec : List String)
    (cs : List Char) :
    csvScan .quoted field rec (quoteChar :: cs) =
      csvScan .closed field rec cs := by
  conv_lhs => rw [csvScan]
  simp

theorem csvScan_quoted_other (field : List Char) (rec : List String)
    (c : Char) (cs : List Char) (h1 : ¬ c = quoteChar) :
    csvScan .quoted field rec (c :: cs) =
      csvScan .quoted (c :: field) rec cs := by
  conv_lhs => rw [csvScan]
  simp [h1]

theorem csvScan_closed_quote (field : List Char) (rec : List String)
    (cs : List Char) :
    csvScan .closed field rec (quoteChar :: cs) =
      csvScan .quoted (quoteChar :: field) rec cs := by
  conv_lhs => rw [csvScan]
  simp

theorem csvScan_closed_comma (field : List Char) (rec : List String)
    (cs : List Char) :
    csvScan .closed field rec (',' :: cs) =
      csvScan .bare [] (String.mk field.reverse :: rec) cs := by
  conv_lhs => rw [csvScan]
  simp [comma_ne_quote]

theorem csvScan_closed_newline (field : List Char) (rec : List String)
    (cs : List Char) :
    csvScan .closed field rec ('\n' :: cs) =
      (String.mk field.reverse :: rec).reverse :: csvScan .bare [] [] cs := by
  conv_lhs => rw [csvScan]
  simp [newline_ne_quote, newline_ne_comma]

theorem escapeChars_quote (s : List Char) :
    escapeChars (quoteChar :: s) =
      quoteChar :: quoteChar :: escapeChars s := by
  rw [escapeChars]
  simp

theorem escapeChars_other (c : Char) (s : List Char)
    (hc : ¬ c = quoteChar) :
    escapeChars (c :: s) = c :: escapeChars s := by
  rw [escapeChars]
  simp [hc]

theorem csvScan_bare_consume (u : List Char) :
    ∀ (field : List Char) (rec : List String) (rest : List Char),
      (∀ c ∈ u, isSpecialChar c = false) →
      csvScan .bare field rec (u ++ rest) =
        csvScan .bare (u.reverse ++ field) rec rest := by
  induction u with
  | nil => intro field rec rest _; simp
  | cons c u ih =>
    intro field rec rest h
    have hc := h c (by simp)
    have hc1 : ¬ c = quoteChar := fun he => by
      subst he; simp [isSpecialChar] at hc
    have hc2 : ¬ c = ',' := fun he => by
      subst he; simp [isSpecialChar] at hc
    have hc3 : ¬ c = '\n' := fun he => by
      subst he; simp [isSpecialChar] at hc
    rw [List.cons_append, csvScan_bare_other field rec c _ hc1 hc2 hc3,
      ih (c :: field) rec rest (fun x hx => h x (by simp [hx]))]
    simp

theorem csvScan_quoted_consume (s : List Char) :
    ∀ (field : List Char) (rec : List String) (rest : List Char),
      csvScan .quoted field rec (escapeChars s ++ (quoteChar :: rest)) =
        csvScan .closed (s.reverse ++ field) rec rest := by
  induction s with
  | nil =>
    intro field rec rest
    show csvScan .quoted field rec (quoteChar :: rest) = _
    rw [csvScan_quoted_quote]
    simp
  | cons c s ih =>
    intro field rec rest
    by_cases hc : c = quoteChar
    · subst hc
      rw [escapeChars_quote, List.cons_append, List.cons_append,
        csvScan_quoted_quote, csvScan_closed_quote,
        ih (quoteChar :: field) rec rest]
      simp
    · rw [escapeChars_other c s hc, List.cons_append,
        csvScan_quoted_other field rec c _ hc, ih (c :: field) rec rest]
      simp

theorem any_special_false {s : String}
    (hs : ¬ s.toList.any isSpecialChar = true) :
    ∀ c ∈ s.toList, isSpecialChar c = false := by
  intro c hcm
  cases hb : isSpecialChar c with
  | false => rfl
  | true => exact absurd (List.any_eq_true.mpr ⟨c, hcm, hb⟩) hs

theorem csvScan_field_comma (f : Option String) (rec : List String)
    (rest : List Char) :
    csvScan .bare [] rec (encodeFieldChars f ++ ',' :: rest) =
      csvScan .bare [] (fieldStr f :: rec) rest := by
  cases f with
  | none =>
    show csvScan .bare [] rec (',' :: rest) = _
    rw [csvScan_bare_comma]
    rfl
  | some s =>
    by_cases hs : s.toList.any isSpecialChar = true
    · show csvScan .bare [] rec
        ((if s.toList.any isSpecialChar then
            quoteChar :: (escapeChars s.toList ++ [quoteChar])
          else s.toList) ++ ',' :: rest) = _
      rw [if_pos hs, List.cons_append, csvScan_bare_quote,
        List.append_assoc, List.singleton_append,
        csvScan_quoted_consume s.toList [] rec (',' :: rest),
        csvScan_closed_comma]
      simp [fieldStr, fieldChars]
    · show csvScan .bare [] rec
        ((if s.toList.any isSpecialChar then
            quoteChar :: (escapeChars s.toList ++ [quoteChar])
          else s.toList) ++ ',' :: rest) = _
      rw [if_neg hs,
        csvScan_bare_consume s.toList [] rec (',' :: rest)
          (any_special_false hs),
        csvScan_bare_comma]
      simp [fieldStr, fieldChars]

theorem csvScan_field_newline (f : Option String) (rec : List String)
    (rest : List Char) :
    csvScan .bare [] rec (encodeFieldChars f ++ '\n' :: rest) =
      (fieldStr f :: rec).reverse :: csvScan .bare [] [] rest := by
  cases f with
  | none =>
    show csvScan .bare [] rec ('\n' :: rest) = _
    rw [csvScan_bare_newline]
    rfl
  | some s =>
    by_cases hs : s.toList.any isSpecialChar = true
    · show csvScan .bare [] rec
        ((if s.toList.any isSpecialChar then
            quoteChar :: (escapeChars s.toList ++ [quoteChar])
          else s.toList) ++ '\n' :: rest) = _
      rw [if_pos hs, List.cons_append, csvScan_bare_quote,
        List.append_assoc, List.singleton_append,
        csvScan_quoted_consume s.toList [] rec ('\n' :: rest),
        csvScan_closed_newline]
      simp [fieldStr, fieldChars]
    · show csvScan .bare [] rec
        ((if s.toList.any isSpecialChar then
            quoteChar :: (escapeChars s.toList ++ [quoteChar])
          else s.toList) ++ '\n' :: rest) = _
      rw [if_neg hs,
        csvScan_bare_consume s.toList [] rec ('\n' :: rest)
          (any_special_false hs),
        csvScan_bare_newline]
      simp [fieldStr, fieldChars]

theorem csvScan_record (fs : List (Option String)) :
    ∀ (rec : List String) (rest : List Char), fs ≠ [] →
      csvScan .bare [] rec (encodeFieldsChars fs ++ '\n' :: rest) =
        (rec.reverse ++ fs.map fieldStr) :: csvScan .bare [] [] rest := by
  induction fs with
  | nil => intro rec rest h; exact absurd rfl h
  | cons f fs ih =>
    intro rec rest _
    cases fs with
    | nil =>
      show csvScan .bare [] rec (encodeFieldChars f ++ '\n' :: rest) = _
      rw [csvScan_field_newline f rec rest]
      simp
    | cons g gs =>
      show csvScan .bare [] rec
        ((encodeFieldChars f ++ ',' :: encodeFieldsChars (g :: gs)) ++
          '\n' :: rest) = _
      rw [List.append_assoc, List.cons_append,
        csvScan_field_comma f rec (encodeFieldsChars (g :: gs) ++ '\n' :: rest),
        ih (fieldStr f :: rec) rest (by simp)]
      simp

theorem csvScan_records (rows : List (List (Option String))) :
    (∀ r ∈ rows, r ≠ []) →
    csvScan .bare [] [] (encodeRecordsChars rows) =
      rows.map (fun r => r.map fieldStr) := by
  induction rows with
  | nil => intro _; simp [encodeRecordsChars, csvScan]
  | cons r rows ih =>
    intro h
    show csvScan .bare [] []
      (encodeFieldsChars r ++ '\n' :: encodeRecordsChars rows) = _
    rw [csvScan_record r [] (encodeRecordsChars rows) (h r (by simp)),
      ih (fun x hx => h x (by simp [hx]))]
    simp

theorem decodeField_fieldStr (f : Option String) :
    decodeField (fieldStr f) = normField f := by
  cases f with
  | none => decide
  | some s =>
    have hm : fieldStr (some s) = s := rfl
    rw [hm]
    rfl

theorem rowOfFields_fieldStr (r : BookRow) :
    rowOfFields ((rowFields r).map fieldStr) = some (normRow r) := by
  show rowOfFields
    [fieldStr r.author, fieldStr r.title, fieldStr r.website,
     fieldStr r.genre, fieldStr r.description, fieldStr r.epub,
     fieldStr r.pdf] = _
  rw [rowOfFields]
  simp [decodeField_fieldStr, normRow]

theorem rowsOfRecs_encoded (tbl : List BookRow) :
    rowsOfRecs (tbl.map (fun r => (rowFields r).map fieldStr)) =
      some (tbl.map normRow) := by
  induction tbl with
  | nil => simp [rowsOfRecs]
  | cons r tbl ih =>
    show rowsOfRecs
      (((rowFields r).map fieldStr) ::
        tbl.map (fun x => (rowFields x).map fieldStr)) = _
    rw [rowsOfRecs, rowOfFields_fieldStr, ih]
    simp

/-- C9: writing any table to CSV in the schema order author, title,
website, genre, description, epub, pdf and reading it back yields the
same table cell for cell, up to the representation of null values (a
NaN cell and an empty-string cell both come back as null). -/
theorem csv_round_trip (tbl : List BookRow) :
    readCsv (writeCsv tbl) = some (tbl.map normRow) := by
  have hne : ∀ r ∈ headerFieldOpts :: tbl.map rowFields, r ≠ [] := by
    intro r hr
    rcases List.mem_cons.mp hr with h | h
    · subst h; decide
    · obtain ⟨x, _, rfl⟩ := List.mem_map.mp h
      simp [rowFields]
  have hscan := csvScan_records (headerFieldOpts :: tbl.map rowFields) hne
  have hl : (writeCsv tbl).toList =
      encodeRecordsChars (headerFieldOpts :: tbl.map rowFields) := rfl
  have hh : headerFieldOpts.map fieldStr = headerFields := by decide
  rw [readCsv, hl, hscan]
  simp only [List.map_cons, hh]
  rw [if_pos trivial, List.map_map]
  show rowsOfRecs (tbl.map (fun r => (rowFields r).map fieldStr)) = _
  exact rowsOfRecs_encoded tbl


end ExtractRawBookData
